import Mathlib

/-!
Verification of the CuponesPeru scraper (src/app.py) against its
natural-language specification.

The program is a single-file Python script.  The parts subject to claims
are embedded shallowly below:

* the scroll loop and the click loop of `collect_dynamic_content`
  (lines 49-58 and 60-70) — the browser is modelled by oracle functions
  (a stream of measured page heights, a per-keyword element count, and a
  per-attempt success flag);
* `extract_coupon_candidates` (lines 77-92) — BeautifulSoup's document
  walk is modelled as the list of visited text nodes, each carrying its
  own text and its parent element's visible text;
* `summarize_with_ai` (lines 95-126) — the network call is modelled by
  the returned completion content (`Option String`, `Option.none` for
  a missing message content); Python's `json.loads` is modelled by an
  executable JSON parser `jsonLoads` into Python-style values `PyValue`.

Python string helpers (`strip`, `split`, `lower`, substring test) are
embedded as executable character-list functions.
-/

/-- Whitespace as recognised by Python's `str.strip` / `str.split`
(restricted to the ASCII whitespace characters that can occur here). -/
def pyIsSpace (c : Char) : Bool :=
  c == ' ' || c == '\t' || c == '\n' || c == '\r' || c == '\x0b' || c == '\x0c'

/-- Python `str.strip()`: remove leading and trailing whitespace. -/
def pyStrip (s : String) : String :=
  String.mk (((s.data.dropWhile pyIsSpace).reverse.dropWhile pyIsSpace).reverse)

/-- Helper for Python `str.split()` with no argument: split on whitespace
runs, discarding empty pieces.  `acc` holds the current word reversed. -/
def wordsAux : List Char → List Char → List String
  | [], acc => if acc.isEmpty then [] else [String.mk acc.reverse]
  | c :: cs, acc =>
    if pyIsSpace c then
      if acc.isEmpty then wordsAux cs []
      else String.mk acc.reverse :: wordsAux cs []
    else wordsAux cs (c :: acc)

/-- Python `" ".join(text.strip().split())`: collapse internal whitespace
runs to single spaces and trim the ends (the `strip` is subsumed). -/
def pyNormalize (s : String) : String :=
  String.intercalate " " (wordsAux s.data [])

/-- Python `str.lower()` restricted to ASCII letters plus the accented
Spanish letters that occur in the keyword lists. -/
def pyLowerChar (c : Char) : Char :=
  if 'A' ≤ c ∧ c ≤ 'Z' then Char.ofNat (c.toNat + 32)
  else if c = 'Á' then 'á'
  else if c = 'É' then 'é'
  else if c = 'Í' then 'í'
  else if c = 'Ó' then 'ó'
  else if c = 'Ú' then 'ú'
  else if c = 'Ñ' then 'ñ'
  else if c = 'Ü' then 'ü'
  else c

/-- Python `str.lower()` on a whole string. -/
def pyLower (s : String) : String :=
  String.mk (s.data.map pyLowerChar)

/-- Does the character list start with the pattern? -/
def startsWithL : List Char → List Char → Bool
  | _, [] => true
  | [], _ :: _ => false
  | c :: cs, p :: ps => c == p && startsWithL cs ps

/-- Does the character list contain the pattern as a contiguous run? -/
def containsSubL (pat : List Char) : List Char → Bool
  | [] => startsWithL [] pat
  | c :: cs => startsWithL (c :: cs) pat || containsSubL pat cs

/-- Python's `needle in haystack` substring test. -/
def containsSubstr (haystack needle : String) : Bool :=
  containsSubL needle.data haystack.data

/-!  A model of Python values as produced by `json.loads`:
`null`/booleans/integers/floats/strings/lists/dicts.  Floats are kept as
their source lexeme (no claim inspects float arithmetic); dict fields are
kept in parse order. -/
inductive PyValue where
  | none
  | bool (b : Bool)
  | int (n : Int)
  | float (lexeme : String)
  | str (s : String)
  | arr (items : List PyValue)
  | obj (fields : List (String × PyValue))

/-- JSON insignificant whitespace (RFC 8259: space, tab, LF, CR). -/
def skipWs : List Char → List Char
  | [] => []
  | c :: cs =>
    if c == ' ' || c == '\t' || c == '\n' || c == '\r' then skipWs cs
    else c :: cs

/-- Consume an expected literal character sequence. -/
def dropLit : List Char → List Char → Option (List Char)
  | [], cs => some cs
  | _ :: _, [] => Option.none
  | l :: ls, c :: cs => if c == l then dropLit ls cs else Option.none

/-- Hexadecimal digit value. -/
def hexVal (c : Char) : Option Nat :=
  if '0' ≤ c ∧ c ≤ '9' then some (c.toNat - 48)
  else if 'a' ≤ c ∧ c ≤ 'f' then some (c.toNat - 87)
  else if 'A' ≤ c ∧ c ≤ 'F' then some (c.toNat - 55)
  else Option.none

/-- Numeric value of a list of decimal digits. -/
def natOfDigits (ds : List Char) : Nat :=
  ds.foldl (fun n c => n * 10 + (c.toNat - 48)) 0

/-- Body of a JSON string after the opening quote.  `acc` holds the
decoded characters reversed.  Unescaped control characters are rejected
(`json.loads` is strict); surrogate pairs are not recombined. -/
def parseStringBody : List Char → List Char → Option (String × List Char)
  | [], _ => Option.none
  | c :: cs, acc =>
    if c == '"' then some (String.mk acc.reverse, cs)
    else if c == '\\' then
      match cs with
      | [] => Option.none
      | e :: cs2 =>
        if e == '"' then parseStringBody cs2 ('"' :: acc)
        else if e == '\\' then parseStringBody cs2 ('\\' :: acc)
        else if e == '/' then parseStringBody cs2 ('/' :: acc)
        else if e == 'b' then parseStringBody cs2 ('\x08' :: acc)
        else if e == 'f' then parseStringBody cs2 ('\x0c' :: acc)
        else if e == 'n' then parseStringBody cs2 ('\n' :: acc)
        else if e == 'r' then parseStringBody cs2 ('\r' :: acc)
        else if e == 't' then parseStringBody cs2 ('\t' :: acc)
        else if e == 'u' then
          match cs2 with
          | h1 :: h2 :: h3 :: h4 :: cs3 =>
            match hexVal h1, hexVal h2, hexVal h3, hexVal h4 with
            | some a, some b, some c2, some d =>
              parseStringBody cs3 (Char.ofNat (((a * 16 + b) * 16 + c2) * 16 + d) :: acc)
            | _, _, _, _ => Option.none
          | _ => Option.none
        else Option.none
    else if c.toNat < 32 then Option.none
    else parseStringBody cs (c :: acc)

/-- Optional JSON fraction part: `.digits` (digits required). Returns the
consumed characters and the rest. -/
def parseFrac : List Char → Option (List Char × List Char)
  | '.' :: r =>
    match List.span Char.isDigit r with
    | ([], _) => Option.none
    | (ds, rest) => some ('.' :: ds, rest)
  | cs => some ([], cs)

/-- Optional JSON exponent part: `[eE][+-]?digits` (digits required). -/
def parseExp : List Char → Option (List Char × List Char)
  | [] => some ([], [])
  | c :: r =>
    if c == 'e' || c == 'E' then
      let ( sgn, r1) := match r with
        | '+' :: t => (['+'], t)
        | '-' :: t => (['-'], t)
        | _ => (([] : List Char), r)
      match List.span Char.isDigit r1 with
      | ([], _) => Option.none
      | (ds, rest) => some (c :: ( sgn ++ ds), rest)
    else some ([], c :: r)

/-- JSON number: optional minus, integer part without leading zeros,
optional fraction and exponent.  A plain integer becomes a Python `int`,
anything with a fraction or exponent becomes a float (kept as lexeme). -/
def parseNumber (cs : List Char) : Option (PyValue × List Char) :=
  let (neg, cs1) := match cs with
    | '-' :: r => (true, r)
    | _ => (false, cs)
  match List.span Char.isDigit cs1 with
  | ([], _) => Option.none
  | (d :: drest, cs2) =>
    if d == '0' && !drest.isEmpty then Option.none
    else
      match parseFrac cs2 with
      | Option.none => Option.none
      | some (frac, cs3) =>
        match parseExp cs3 with
        | Option.none => Option.none
        | some (ex, cs4) =>
          if frac.isEmpty && ex.isEmpty then
            some (PyValue.int (if neg then -(natOfDigits (d :: drest) : Int)
                               else (natOfDigits (d :: drest) : Int)), cs4)
          else
            some (PyValue.float (String.mk ((if neg then ['-'] else []) ++
                    (d :: drest) ++ frac ++ ex)), cs4)

/-- The `\x7b` character. -/
def lbrace : Char := Char.ofNat 123

/-- The `\x7d` character. -/
def rbrace : Char := Char.ofNat 125

mutual

/-- One JSON value, fuelled.  Models the grammar accepted by Python's
`json.loads` (including its `NaN` / `Infinity` extensions). -/
def parseValue : Nat → List Char → Option (PyValue × List Char)
  | 0, _ => Option.none
  | fuel + 1, cs0 =>
    match skipWs cs0 with
    | [] => Option.none
    | c :: cs =>
      if c == 'n' then
        match dropLit ['u', 'l', 'l'] cs with
        | some rest => some (PyValue.none, rest)
        | Option.none => Option.none
      else if c == 't' then
        match dropLit ['r', 'u', 'e'] cs with
        | some rest => some (PyValue.bool true, rest)
        | Option.none => Option.none
      else if c == 'f' then
        match dropLit ['a', 'l', 's', 'e'] cs with
        | some rest => some (PyValue.bool false, rest)
        | Option.none => Option.none
      else if c == 'N' then
        match dropLit ['a', 'N'] cs with
        | some rest => some (PyValue.float "nan", rest)
        | Option.none => Option.none
      else if c == 'I' then
        match dropLit ['n', 'f', 'i', 'n', 'i', 't', 'y'] cs with
        | some rest => some (PyValue.float "inf", rest)
        | Option.none => Option.none
      else if c == '"' then
        match parseStringBody cs [] with
        | some (s, rest) => some (PyValue.str s, rest)
        | Option.none => Option.none
      else if c == '[' then
        match skipWs cs with
        | ']' :: rest => some (PyValue.arr [], rest)
        | _ => parseArrayTail fuel cs []
      else if c == lbrace then
        match skipWs cs with
        | d :: rest =>
          if d == rbrace then some (PyValue.obj [], rest)
          else parseObjTail fuel cs []
        | [] => Option.none
      else if c == '-' then
        match cs with
        | 'I' :: cs2 =>
          match dropLit ['n', 'f', 'i', 'n', 'i', 't', 'y'] cs2 with
          | some rest => some (PyValue.float "-inf", rest)
          | Option.none => Option.none
        | _ => parseNumber (c :: cs)
      else if c.isDigit then parseNumber (c :: cs)
      else Option.none

/-- Elements of a non-empty JSON array, fuelled. -/
def parseArrayTail : Nat → List Char → List PyValue → Option (PyValue × List Char)
  | 0, _, _ => Option.none
  | fuel + 1, cs, acc =>
    match parseValue fuel cs with
    | Option.none => Option.none
    | some (v, rest) =>
      match skipWs rest with
      | ',' :: r => parseArrayTail fuel r (acc ++ [v])
      | ']' :: r => some (PyValue.arr (acc ++ [v]), r)
      | _ => Option.none

/-- Members of a non-empty JSON object, fuelled. -/
def parseObjTail : Nat → List Char → List (String × PyValue) → Option (PyValue × List Char)
  | 0, _, _ => Option.none
  | fuel + 1, cs, acc =>
    match skipWs cs with
    | '"' :: r =>
      match parseStringBody r [] with
      | Option.none => Option.none
      | some (key, r2) =>
        match skipWs r2 with
        | ':' :: r3 =>
          match parseValue fuel r3 with
          | Option.none => Option.none
          | some (v, r4) =>
            match skipWs r4 with
            | ',' :: r5 => parseObjTail fuel r5 (acc ++ [(key, v)])
            | d :: r5 =>
              if d == rbrace then some (PyValue.obj (acc ++ [(key, v)]), r5)
              else Option.none
            | [] => Option.none
        | _ => Option.none
    | _ => Option.none

end

/-- Model of Python `json.loads`: parse one value, then require only
whitespace to remain; any violation raises `JSONDecodeError`, modelled as
`Option.none`.  The fuel `2 * length + 2` dominates the recursion depth. -/
def jsonLoads (s : String) : Option PyValue :=
  match parseValue (2 * s.length + 2) s.data with
  | some (v, rest) => if (skipWs rest).isEmpty then some v else Option.none
  | Option.none => Option.none

/-! ## Constants of src/app.py -/

/-- `DEEPSEEK_TOKEN = os.environ.get("DEEPSEEK_API_KEY", "sk-…")`
(src/app.py line 12).  The argument is the value of the environment
variable `DEEPSEEK_API_KEY`, `Option.none` when it is absent. -/
def DEEPSEEK_TOKEN (env_value : Option String) : String :=
  env_value.getD "sk-f0a3bf1e44554bc6bea9936ea410db80"

/-- `DEEPSEEK_MODEL` (src/app.py line 13). -/
def DEEPSEEK_MODEL : String := "deepseek-chat"

/-- `LOAD_MORE_KEYWORDS` (src/app.py lines 16-27). -/
def LOAD_MORE_KEYWORDS : List String :=
  ["load more", "show more", "ver más", "ver mas", "mostrar más",
   "mostrar mas", "ver todo", "más resultados", "mas resultados", "load"]

/-- `COUPON_KEYWORDS` (src/app.py lines 29-39). -/
def COUPON_KEYWORDS : List String :=
  ["cupón", "cupon", "descuento", "promo", "promoción", "promocion",
   "oferta", "código", "codigo"]

/-! ## The scroll loop of collect_dynamic_content (src/app.py lines 49-58)

`measure i` is the value of `document.body.scrollHeight` observed by
the `i`-th `page.evaluate` call.  The loop state is the remaining
iteration budget, `previous_height` (initially 0) and `scroll_events`
(initially 0); each iteration scrolls, waits, measures, increments
`scroll_events`, and breaks when the measured height equals the previous
one. -/
def scroll_loop (measure : Nat → Int) : Nat → Int → Nat → Nat
  | 0, _, events => events
  | remaining + 1, previous_height, events =>
    let new_height := measure events
    if new_height = previous_height then events + 1
    else scroll_loop measure remaining new_height (events + 1)

/-- The final `scroll_events` counter of the scroll loop, started from
`previous_height = 0`, `scroll_events = 0` with `max_scrolls` budget. -/
def scroll_events (measure : Nat → Int) (max_scrolls : Nat) : Nat :=
  scroll_loop measure max_scrolls 0 0

/-- The height measurements of the C2 scenario: `[1000, 1800, 1800]`
(the page stays at height 1800 afterwards). -/
def c2_heights (i : Nat) : Int :=
  [(1000 : Int), 1800, 1800].getD i 1800

/-! ## The click loop of collect_dynamic_content (src/app.py lines 60-70)

`counts kw` models `locator.count()` for the keyword's locator, and
`clickOk kw i` tells whether clicking `locator.nth(i)` succeeds within
its 2000 ms timeout (`false` = `PlaywrightTimeoutError`, absorbed by the
`except` clause). -/

/-- A successful click record `{"keyword": …, "index": …}`. -/
structure ClickEvent where
  keyword : String
  index : Nat

/-- The inner `for index in range(min(count, max_clicks))` loop for one
keyword, over the list of indices still to try.  Returns the list of
click attempts (keyword, index) in order, and the `ClickEvent`s appended
by successful clicks. -/
def clickInner (clickOk : String → Nat → Bool) (kw : String) :
    List Nat → List (String × Nat) × List ClickEvent
  | [] => ([], [])
  | i :: rest =>
    let r := clickInner clickOk kw rest
    ((kw, i) :: r.1, if clickOk kw i then ClickEvent.mk kw i :: r.2 else r.2)

/-- The outer `for keyword in LOAD_MORE_KEYWORDS` loop.  Returns all
click attempts made (in order) and the accumulated `clicks` list. -/
def click_loop (counts : String → Nat) (clickOk : String → Nat → Bool)
    (max_clicks : Nat) : List String → List (String × Nat) × List ClickEvent
  | [] => ([], [])
  | kw :: rest =>
    let inner := clickInner clickOk kw (List.range (min (counts kw) max_clicks))
    let r := click_loop counts clickOk max_clicks rest
    (inner.1 ++ r.1, inner.2 ++ r.2)

/-! ## extract_coupon_candidates (src/app.py lines 77-92)

`soup.find_all(text=True)` is modelled as the list of text nodes in
document order; `element.parent.get_text(" ", strip=True)` is the
node's `parentText` field (the HTML parser itself is an external
library). -/

/-- A text node of the parsed document together with the visible text of
its enclosing element. -/
structure TextNode where
  text : String
  parentText : String

/-- `any(keyword in lower for keyword in COUPON_KEYWORDS)`. -/
def keyword_hit (lower : String) : Bool :=
  COUPON_KEYWORDS.any (fun keyword => containsSubstr lower keyword)

/-- The body of one loop iteration on a non-empty normalized text:
append the parent snippet when a coupon keyword matches, the snippet is
non-empty and not already present. -/
def stepSnippets (node : TextNode) (snippets : List String) : List String :=
  if keyword_hit (pyLower (pyNormalize node.text)) then
    if node.parentText ≠ "" ∧ node.parentText ∉ snippets then
      snippets ++ [node.parentText]
    else snippets
  else snippets

/-- The `for element in soup.find_all(text=True)` loop: empty normalized
text is skipped (`continue`, which also skips the limit check); otherwise
the snippet step runs and the loop breaks once `len(snippets) >= limit`. -/
def extractAux (limit : Nat) : List TextNode → List String → List String
  | [], snippets => snippets
  | node :: rest, snippets =>
    if pyNormalize node.text = "" then extractAux limit rest snippets
    else if limit ≤ (stepSnippets node snippets).length then stepSnippets node snippets
    else extractAux limit rest (stepSnippets node snippets)

/-- `extract_coupon_candidates(html, limit)` (src/app.py lines 77-92);
the Python default for `limit` is 30. -/
def extract_coupon_candidates (nodes : List TextNode) (limit : Nat) : List String :=
  extractAux limit nodes []

/-- A one-node document for the limit-0 boundary: its text node contains
the keyword "cupon" and its parent's visible text is "cupon x". -/
def c6_node : TextNode :=
  TextNode.mk "cupon" "cupon x"

/-! ## summarize_with_ai (src/app.py lines 95-126) -/

/-- Python `html[:6000]`: the first 6000 characters. -/
def str_take (s : String) (n : Nat) : String :=
  String.mk (s.data.take n)

/-- `"\n".join(f"- {text}" for text in candidates) or "- (sin candidatos
claros)"` — the `or` replaces a falsy (empty) join with the sentinel. -/
def joined_candidates (candidates : List String) : String :=
  let j := String.intercalate "\n" (candidates.map (fun text => "- " ++ text))
  if j = "" then "- (sin candidatos claros)" else j

/-- The f-string `user` prompt of `summarize_with_ai`
(src/app.py lines 100-113). -/
def user_prompt (url condensed_html joined : String) : String :=
  "\nURL objetivo: " ++ url ++
  "\nHTML (recortado): " ++ condensed_html ++
  "\nPosibles textos relevantes:\n" ++ joined ++
  "\n\nDevuelve un JSON con una lista de objetos de cupones. Cada objeto debe incluir los campos:\n" ++
  "- title: nombre corto del cupón o promoción\n" ++
  "- description: detalles útiles del beneficio\n" ++
  "- code: el código del cupón si existe, de lo contrario null\n" ++
  "- value: porcentaje o monto del descuento si aparece, de lo contrario null\n" ++
  "- link: URL objetivo (usa " ++ url ++ " si no hay una específica)\n" ++
  "\nSi no hay cupones, responde [] como JSON sin texto adicional.\n"

/-- The chat completion request assembled by `summarize_with_ai`. -/
structure ChatRequest where
  model : String
  system : String
  user : String
  temperature : Nat

/-- The request `summarize_with_ai` sends (src/app.py lines 96-118):
model `deepseek-chat`, the fixed system persona, the rendered user
prompt over `html[:6000]`, and `temperature=0`. -/
def summarize_request (url html : String) (candidates : List String) : ChatRequest :=
  ChatRequest.mk DEEPSEEK_MODEL
    "Eres un asistente que extrae cupones y descuentos desde HTML."
    (user_prompt url (str_take html 6000) (joined_candidates candidates))
    0

/-- The synthetic fallback coupon record (src/app.py line 126). -/
def fallback_record (url raw_content : String) : PyValue :=
  PyValue.obj [("title", PyValue.str "No se pudieron interpretar cupones"),
               ("description", PyValue.str (pyStrip raw_content)),
               ("code", PyValue.none),
               ("value", PyValue.none),
               ("link", PyValue.str url)]

/-- Python's truthy `content or "[]"` (src/app.py line 119): both a
missing (`None`) and an empty (falsy) message content are replaced by
the literal text `[]`. -/
def raw_content_of (content : Option String) : String :=
  match content with
  | Option.none => "[]"
  | some s => if s = "" then "[]" else s

/-- Response handling of `summarize_with_ai` (src/app.py lines 119-126):
`raw_content = response.choices[0].message.content or "[]"`, then
parse-or-fallback.  `content` is the message content returned by the
model (`Option.none` for a missing/None content). -/
def summarize_with_ai (url html : String) (candidates : List String)
    (content : Option String) : List PyValue :=
  match jsonLoads (raw_content_of content) with
  | some (PyValue.arr xs) => xs
  | _ => [fallback_record url (raw_content_of content)]

/-- Association-list lookup on the fields of a parsed JSON object
(first match, as Python dict lookup after json's last-wins dedup — the
inputs used below have no duplicate keys). -/
def lookupField : List (String × PyValue) → String → Option PyValue
  | [], _ => Option.none
  | (k, v) :: rest, key => if k = key then some v else lookupField rest key

/-- Is the record a JSON object whose "link" field is a non-empty
string? -/
def link_is_nonempty_string (v : PyValue) : Bool :=
  match v with
  | PyValue.obj fields =>
    match lookupField fields "link" with
    | some (PyValue.str s) => !(s == "")
    | _ => false
  | _ => false

/-- The model response of the C3 scenario:
a one-element JSON list whose record has `"link": null`. -/
def c3_response : String :=
  "[\x7b\"title\":\"A\",\"description\":\"B\",\"code\":null,\"value\":\"10%\",\"link\":null\x7d]"

/-! ## Helper lemmas -/

lemma nodup_append_singleton {acc : List String} {p : String}
    (hacc : acc.Nodup) (hp : p ∉ acc) : (acc ++ [p]).Nodup := by
  simp [List.nodup_append, hacc, hp]

lemma stepSnippets_cases (node : TextNode) (acc : List String) :
    stepSnippets node acc = acc ∨
    (stepSnippets node acc = acc ++ [node.parentText] ∧ node.parentText ∉ acc) := by
  unfold stepSnippets
  split_ifs with h1 h2
  · exact Or.inr ⟨rfl, h2.2⟩
  · exact Or.inl rfl
  · exact Or.inl rfl

lemma extractAux_spec (limit : Nat) (nodes : List TextNode) :
    ∀ acc : List String, acc.Nodup →
      ∃ t, extractAux limit nodes acc = acc ++ t ∧
        (acc ++ t).Nodup ∧
        t.Sublist (nodes.map TextNode.parentText) ∧
        (acc.length < limit → (acc ++ t).length ≤ limit) := by
  induction nodes with
  | nil =>
    intro acc hacc
    refine ⟨[], by simp [extractAux], by simpa using hacc, List.nil_sublist _, ?_⟩
    intro h
    simpa using Nat.le_of_lt h
  | cons node rest ih =>
    intro acc hacc
    by_cases htext : pyNormalize node.text = ""
    · obtain ⟨t, heq, hnd, hsub, hlen⟩ := ih acc hacc
      refine ⟨t, ?_, hnd, ?_, hlen⟩
      · simp only [extractAux, if_pos htext]
        exact heq
      · simp only [List.map_cons]
        exact hsub.cons _
    · rcases stepSnippets_cases node acc with hstep | ⟨hstep, hfresh⟩
      · by_cases hlim : limit ≤ (stepSnippets node acc).length
        · refine ⟨[], ?_, by simpa using hacc, List.nil_sublist _, ?_⟩
          · simp only [extractAux, if_neg htext, if_pos hlim]
            simpa using hstep
          · intro h
            simpa using Nat.le_of_lt h
        · obtain ⟨t, heq, hnd, hsub, hlen⟩ := ih acc hacc
          refine ⟨t, ?_, hnd, ?_, hlen⟩
          · simp only [extractAux, if_neg htext, if_neg hlim]
            rw [hstep]
            exact heq
          · simp only [List.map_cons]
            exact hsub.cons _
      · have hnd1 : (acc ++ [node.parentText]).Nodup := nodup_append_singleton hacc hfresh
        by_cases hlim : limit ≤ (stepSnippets node acc).length
        · refine ⟨[node.parentText], ?_, hnd1, ?_, ?_⟩
          · simp only [extractAux, if_neg htext, if_pos hlim]
            exact hstep
          · simp only [List.map_cons]
            exact (List.nil_sublist _).cons₂ _
          · intro h
            simp only [List.length_append, List.length_singleton]
            exact Nat.succ_le_of_lt h
        · have hlt1 : (acc ++ [node.parentText]).length < limit := by
            rw [← hstep]
            exact Nat.lt_of_not_le hlim
          obtain ⟨t, heq, hnd2, hsub, hlen2⟩ := ih (acc ++ [node.parentText]) hnd1
          refine ⟨node.parentText :: t, ?_, ?_, ?_, ?_⟩
          · simp only [extractAux, if_neg htext, if_neg hlim]
            rw [hstep, heq, List.append_assoc]
            rfl
          · have := hnd2
            rw [List.append_assoc] at this
            exact this
          · simp only [List.map_cons]
            exact hsub.cons₂ _
          · intro _
            have := hlen2 hlt1
            rw [List.append_assoc] at this
            exact this

lemma summarize_fallback_of_not_list (url html : String) (cands : List String)
    (content : Option String)
    (hfail : ∀ xs, jsonLoads (raw_content_of content) ≠ some (PyValue.arr xs)) :
    summarize_with_ai url html cands content
      = [fallback_record url (raw_content_of content)] := by
  unfold summarize_with_ai
  cases h : jsonLoads (raw_content_of content) with
  | none => rfl
  | some v =>
    cases v with
    | arr xs => exact absurd h (hfail xs)
    | none => rfl
    | bool b => rfl
    | int n => rfl
    | float s => rfl
    | str s => rfl
    | obj fs => rfl

lemma clickInner_attempts (clickOk : String → Nat → Bool) (kw : String)
    (idxs : List Nat) :
    (clickInner clickOk kw idxs).1 = idxs.map (fun i => (kw, i)) := by
  induction idxs with
  | nil => rfl
  | cons i rest ih => simp [clickInner, ih]

lemma clickInner_events (clickOk : String → Nat → Bool) (kw : String)
    (idxs : List Nat) :
    (clickInner clickOk kw idxs).2
      = ((clickInner clickOk kw idxs).1.filter (fun a => clickOk a.1 a.2)).map
          (fun a => ClickEvent.mk a.1 a.2) := by
  induction idxs with
  | nil => rfl
  | cons i rest ih =>
    cases hc : clickOk kw i with
    | true => simp [clickInner, hc, ih]
    | false => simp [clickInner, hc, ih]

lemma filter_fst_map_ne (kw kw2 : String) (h : kw2 ≠ kw) (idxs : List Nat) :
    ((idxs.map (fun i => (kw2, i))).filter (fun a => a.1 == kw)) = [] := by
  induction idxs with
  | nil => rfl
  | cons i rest ih => simp [List.filter_cons, h, ih]

lemma filter_fst_map_self (kw : String) (idxs : List Nat) :
    ((idxs.map (fun i => (kw, i))).filter (fun a => a.1 == kw))
      = idxs.map (fun i => (kw, i)) := by
  induction idxs with
  | nil => rfl
  | cons i rest ih => simp [List.filter_cons, ih]

lemma click_loop_filter_not_mem (counts : String → Nat)
    (clickOk : String → Nat → Bool) (m : Nat) (kw : String) :
    ∀ ks : List String, kw ∉ ks →
      ((click_loop counts clickOk m ks).1.filter (fun a => a.1 == kw)) = [] := by
  intro ks
  induction ks with
  | nil => intro _; rfl
  | cons kw2 rest ih =>
    intro hmem
    have h2 : kw2 ≠ kw := fun h => hmem (h ▸ List.mem_cons_self _ _)
    simp [click_loop, List.filter_append, clickInner_attempts,
          filter_fst_map_ne kw kw2 h2, ih (fun h => hmem (List.mem_cons_of_mem _ h))]

lemma click_loop_filter_mem (counts : String → Nat)
    (clickOk : String → Nat → Bool) (m : Nat) (kw : String) :
    ∀ ks : List String, ks.Nodup → kw ∈ ks →
      ((click_loop counts clickOk m ks).1.filter (fun a => a.1 == kw))
        = (List.range (min (counts kw) m)).map (fun i => (kw, i)) := by
  intro ks
  induction ks with
  | nil => intro _ h; exact absurd h (List.not_mem_nil _)
  | cons kw2 rest ih =>
    intro hnd hmem
    rw [List.nodup_cons] at hnd
    rcases List.mem_cons.mp hmem with heq | hmem2
    · subst heq
      simp [click_loop, List.filter_append, clickInner_attempts,
            filter_fst_map_self, click_loop_filter_not_mem counts clickOk m kw rest hnd.1]
    · have h2 : kw2 ≠ kw := fun h => hnd.1 (h ▸ hmem2)
      simp [click_loop, List.filter_append, clickInner_attempts,
            filter_fst_map_ne kw kw2 h2, ih hnd.2 hmem2]

lemma startsWithL_nil (l : List Char) : startsWithL l [] = true := by
  cases l <;> rfl

lemma startsWithL_append (p rest : List Char) : startsWithL (p ++ rest) p = true := by
  induction p with
  | nil => simpa using startsWithL_nil rest
  | cons c cs ih => simp [startsWithL, ih]

lemma containsSubL_of_starts (p l : List Char) (h : startsWithL l p = true) :
    containsSubL p l = true := by
  cases l with
  | nil => simpa [containsSubL] using h
  | cons c cs => simp [containsSubL, h]

lemma containsSubL_append_left (x l p : List Char)
    (h : containsSubL p l = true) : containsSubL p (x ++ l) = true := by
  induction x with
  | nil => simpa using h
  | cons c cs ih =>
    simp only [List.cons_append, containsSubL, Bool.or_eq_true]
    exact Or.inr ih

lemma data_append (s t : String) : (s ++ t).data = s.data ++ t.data := rfl

/-! ## Claims -/

/-- C1 counterexample: the empty-string model response does not parse
as JSON, yet the program returns zero records rather than one fallback
record — Python's truthy `content or "[]"` (src/app.py line 119) also
substitutes `[]` for the falsy empty string, which then parses to the
empty list. -/
theorem summarize_empty_response_counterexample :
    jsonLoads "" = Option.none ∧
    summarize_with_ai "https://example.com" "" [] (some "") = [] :=
  ⟨rfl, rfl⟩

/-- C1 (amended): the truthy substitution of src/app.py line 119
replaces both a missing and an empty model response with the literal
text `[]`; for the substituted text, if it parses as JSON to a list
then `summarize_with_ai` returns that list as-is; if it does not parse,
or parses to a non-list value, the function returns exactly the single
synthetic fallback record; and the result is empty only when the
substituted text parses to the empty JSON list — which also happens for
a falsy (missing or empty-string) response, not only when the model
explicitly returned an empty JSON list. -/
theorem summarize_parse_or_single_fallback (url html : String)
    (cands : List String) (content : Option String) :
    (∀ xs, jsonLoads (raw_content_of content) = some (PyValue.arr xs) →
      summarize_with_ai url html cands content = xs) ∧
    ((∀ xs, jsonLoads (raw_content_of content) ≠ some (PyValue.arr xs)) →
      summarize_with_ai url html cands content
        = [fallback_record url (raw_content_of content)]) ∧
    (summarize_with_ai url html cands content = [] →
      jsonLoads (raw_content_of content) = some (PyValue.arr [])) := by
  refine ⟨?_, summarize_fallback_of_not_list url html cands content, ?_⟩
  · intro xs hx
    unfold summarize_with_ai
    rw [hx]
  · intro hempty
    unfold summarize_with_ai at hempty
    cases h : jsonLoads (raw_content_of content) with
    | none =>
      rw [h] at hempty
      exact absurd hempty (List.cons_ne_nil _ _)
    | some v =>
      rw [h] at hempty
      cases v with
      | arr xs =>
        have hx : xs = [] := hempty
        rw [hx]
      | none => exact absurd hempty (List.cons_ne_nil _ _)
      | bool b => exact absurd hempty (List.cons_ne_nil _ _)
      | int n => exact absurd hempty (List.cons_ne_nil _ _)
      | float s => exact absurd hempty (List.cons_ne_nil _ _)
      | str s => exact absurd hempty (List.cons_ne_nil _ _)
      | obj fs => exact absurd hempty (List.cons_ne_nil _ _)

/-- Witness for C1: the parsed-list branch at the concrete response
`[1]`. -/
theorem summarize_parse_or_single_fallback_witness :
    summarize_with_ai "https://example.com" "" [] (some "[1]") = [PyValue.int 1] :=
  (summarize_parse_or_single_fallback "https://example.com" "" [] (some "[1]")).1
    [PyValue.int 1] rfl

/-- C2 counterexample: with measured page heights `[1000, 1800, 1800]`
the scroll loop does NOT report 2 scroll events — the third iteration
(the one that observes the repeated height 1800) still increments the
counter before breaking. -/
theorem scroll_events_c2_not_two : scroll_events c2_heights 8 ≠ 2 := by decide

/-- C2 (amended): with measured page heights `[1000, 1800, 1800]` the
scroll loop performs exactly 3 iterations — it stops at the iteration
that first measures a repeated height, and that iteration still
increments the counter — so `scroll_events = 3`. -/
theorem scroll_events_c2_eq_three : scroll_events c2_heights 8 = 3 := by decide

/-- C3 counterexample: for the model response
`[{"title":"A","description":"B","code":null,"value":"10%","link":null}]`
the synthesizer returns the parsed record unchanged, with `link` still
null — no record of the output has a non-empty string `link`, so a null
link is not replaced by the target URL. -/
theorem summarize_c3_link_left_null :
    summarize_with_ai "https://example.com" "" [] (some c3_response)
      = [PyValue.obj
          [("title", PyValue.str "A"), ("description", PyValue.str "B"),
           ("code", PyValue.none), ("value", PyValue.str "10%"),
           ("link", PyValue.none)]] ∧
    (summarize_with_ai "https://example.com" "" [] (some c3_response)).all
        link_is_nonempty_string = false :=
  ⟨rfl, rfl⟩

/-- C3 (amended): only the synthetic fallback record carries the link
guarantee — whenever the response does not parse to a JSON list, every
record of the output is an object whose `link` field equals the target
URL; records of a successfully parsed list are returned without any
link normalization. -/
theorem summarize_link_amended (url html : String) (cands : List String)
    (content : Option String) (v : PyValue)
    (hv : v ∈ summarize_with_ai url html cands content)
    (hfail : ∀ xs, jsonLoads (content.getD "[]") ≠ some (PyValue.arr xs)) :
    ∃ fields, v = PyValue.obj fields ∧
      lookupField fields "link" = some (PyValue.str url) := by
  cases content with
  | none => exact absurd rfl (hfail [])
  | some s =>
    by_cases hs : s = ""
    · subst hs
      have hout : summarize_with_ai url html cands (some "") = [] := rfl
      rw [hout] at hv
      exact absurd hv (List.not_mem_nil v)
    · have hfail2 : ∀ xs, jsonLoads (raw_content_of (some s)) ≠ some (PyValue.arr xs) := by
        intro xs
        have hrc : raw_content_of (some s) = s := by simp [raw_content_of, hs]
        rw [hrc]
        exact hfail xs
      rw [summarize_fallback_of_not_list url html cands (some s) hfail2] at hv
      have hveq : v = fallback_record url (raw_content_of (some s)) :=
        List.mem_singleton.mp hv
      subst hveq
      exact ⟨_, rfl, rfl⟩

/-- Witness for C3 (amended): the fallback branch at the concrete
response `not json`. -/
theorem summarize_link_amended_witness :
    ∃ fields,
      fallback_record "https://example.com" "not json" = PyValue.obj fields ∧
      lookupField fields "link" = some (PyValue.str "https://example.com") :=
  summarize_link_amended "https://example.com" "" [] (some "not json")
    (fallback_record "https://example.com" "not json")
    (by
      rw [show summarize_with_ai "https://example.com" "" [] (some "not json")
            = [fallback_record "https://example.com" "not json"] from rfl]
      exact List.mem_singleton.mpr rfl)
    (by
      intro xs h
      rw [show jsonLoads ((some "not json").getD "[]") = Option.none from rfl] at h
      exact Option.noConfusion h)

/-- C4: with the environment variable `DEEPSEEK_API_KEY` absent, the
program does not fail — `DEEPSEEK_TOKEN` evaluates to the hardcoded
default key and execution proceeds with it. -/
theorem deepseek_token_defaults_to_embedded_key :
    DEEPSEEK_TOKEN Option.none = "sk-f0a3bf1e44554bc6bea9936ea410db80" := rfl

/-- C5: for the model response being the literal text `not json`, the
synthesizer returns exactly one record: the fixed sentinel title, the
raw trimmed response as description, null code and value, and the input
URL as link. -/
theorem summarize_not_json (url html : String) (cands : List String) :
    summarize_with_ai url html cands (some "not json")
      = [PyValue.obj
          [("title", PyValue.str "No se pudieron interpretar cupones"),
           ("description", PyValue.str "not json"),
           ("code", PyValue.none),
           ("value", PyValue.none),
           ("link", PyValue.str url)]] := by
  unfold summarize_with_ai
  rw [show jsonLoads (raw_content_of (some "not json")) = Option.none from rfl]
  rfl

/-- C6 counterexample: with `limit = 0` and a document whose single text
node contains the keyword `cupon`, the extractor still emits one
candidate — the limit check runs only after the append, so the output
length exceeds the configured limit. -/
theorem extract_limit_zero_counterexample :
    ¬ ((extract_coupon_candidates [c6_node] 0).length ≤ 0) := by decide

/-- C6 (amended): for every input document and every limit, the
extractor output has no duplicate strings and is a subsequence of the
parent-element snippets in document order; and whenever the limit is at
least 1 (the Python default is 30), the output length is at most the
limit. -/
theorem extract_coupon_candidates_invariants (nodes : List TextNode) (limit : Nat) :
    (extract_coupon_candidates nodes limit).Nodup ∧
    (extract_coupon_candidates nodes limit).Sublist (nodes.map TextNode.parentText) ∧
    (1 ≤ limit → (extract_coupon_candidates nodes limit).length ≤ limit) := by
  obtain ⟨t, heq, hnd, hsub, hlen⟩ := extractAux_spec limit nodes [] List.nodup_nil
  unfold extract_coupon_candidates
  rw [heq]
  simp only [List.nil_append] at hnd hlen ⊢
  exact ⟨hnd, hsub, fun h => hlen h⟩

/-- Witness for C6 (amended): the bound at `limit = 1` on the one-node
document. -/
theorem extract_coupon_candidates_invariants_witness :
    (extract_coupon_candidates [c6_node] 1).length ≤ 1 :=
  (extract_coupon_candidates_invariants [c6_node] 1).2.2 (by decide)

/-- C7: for every keyword of the click loop, exactly
`min(matchCount, maxClicks)` click attempts are made for that keyword,
at indices 0, 1, … in element document order. -/
theorem click_loop_attempts_per_keyword (counts : String → Nat)
    (clickOk : String → Nat → Bool) (max_clicks : Nat) (kw : String)
    (hkw : kw ∈ LOAD_MORE_KEYWORDS) :
    ((click_loop counts clickOk max_clicks LOAD_MORE_KEYWORDS).1.filter
        (fun a => a.1 == kw))
      = (List.range (min (counts kw) max_clicks)).map (fun i => (kw, i)) :=
  click_loop_filter_mem counts clickOk max_clicks kw LOAD_MORE_KEYWORDS (by decide) hkw

/-- Witness for C7: 7 matching elements for the keyword `load more` with
`maxClicks = 5` yield exactly the 5 attempts at indices 0 through 4. -/
theorem click_loop_attempts_per_keyword_witness :
    ((click_loop (fun _ => 7) (fun _ _ => true) 5 LOAD_MORE_KEYWORDS).1.filter
        (fun a => a.1 == "load more"))
      = [("load more", 0), ("load more", 1), ("load more", 2),
         ("load more", 3), ("load more", 4)] := by
  rw [click_loop_attempts_per_keyword (fun _ => 7) (fun _ _ => true) 5
        "load more" (by decide)]
  decide

/-- C8: the `clicks` list is exactly the successful attempts, one
`ClickEvent` per successful click with its keyword and index; and the
attempt sequence does not depend on which clicks time out — a timed-out
attempt appends no event and never curtails the remaining attempts or
the run. -/
theorem click_loop_timeouts_absorbed (counts : String → Nat)
    (clickOk clickOk2 : String → Nat → Bool) (max_clicks : Nat)
    (ks : List String) :
    (click_loop counts clickOk max_clicks ks).2
      = ((click_loop counts clickOk max_clicks ks).1.filter
          (fun a => clickOk a.1 a.2)).map (fun a => ClickEvent.mk a.1 a.2) ∧
    (click_loop counts clickOk max_clicks ks).1
      = (click_loop counts clickOk2 max_clicks ks).1 := by
  constructor
  · induction ks with
    | nil => rfl
    | cons kw rest ih =>
      simp [click_loop, List.filter_append, clickInner_events, ih]
  · induction ks with
    | nil => rfl
    | cons kw rest ih =>
      simp [click_loop, clickInner_attempts, ih]

/-- C9: the request built by `summarize_with_ai` has temperature 0, its
prompt depends on the HTML only through the first 6000 characters (which
are at most 6000 characters long), and an empty candidate list is
rendered as the fixed sentinel placeholder line. -/
theorem summarize_request_props (url html : String) (cands : List String) :
    (summarize_request url html cands).temperature = 0 ∧
    (summarize_request url html cands).user
      = (summarize_request url (str_take html 6000) cands).user ∧
    (str_take html 6000).length ≤ 6000 ∧
    (cands = [] → containsSubstr (summarize_request url html cands).user
        "- (sin candidatos claros)" = true) := by
  refine ⟨rfl, ?_, ?_, ?_⟩
  · have h1 : str_take (str_take html 6000) 6000 = str_take html 6000 := by
      unfold str_take
      show String.mk ((html.data.take 6000).take 6000) = String.mk (html.data.take 6000)
      rw [List.take_take, Nat.min_self]
    show user_prompt url (str_take html 6000) (joined_candidates cands)
      = user_prompt url (str_take (str_take html 6000) 6000) (joined_candidates cands)
    rw [h1]
  · show (html.data.take 6000).length ≤ 6000
    exact List.length_take_le 6000 html.data
  · intro hc
    subst hc
    have hj : joined_candidates [] = "- (sin candidatos claros)" := rfl
    show containsSubstr (user_prompt url (str_take html 6000) (joined_candidates []))
        "- (sin candidatos claros)" = true
    rw [hj]
    unfold containsSubstr user_prompt
    simp only [data_append, List.append_assoc]
    apply containsSubL_append_left
    apply containsSubL_append_left
    apply containsSubL_append_left
    apply containsSubL_append_left
    apply containsSubL_append_left
    exact containsSubL_of_starts _ _ (startsWithL_append _ _)

/-- Witness for C9: the sentinel placeholder appears in the prompt built
for an empty candidate list. -/
theorem summarize_request_props_witness :
    containsSubstr (summarize_request "https://example.com" "<html>" []).user
      "- (sin candidatos claros)" = true :=
  (summarize_request_props "https://example.com" "<html>" []).2.2.2 rfl

/-- C10: a missing/None message content is substituted by the literal
text `[]`, which parses as the empty JSON list, so the result is the
empty coupons list and not a fallback record. -/
theorem summarize_none_content_empty (url html : String) (cands : List String) :
    (Option.none : Option String).getD "[]" = "[]" ∧
    jsonLoads "[]" = some (PyValue.arr []) ∧
    summarize_with_ai url html cands Option.none = [] := by
  refine ⟨rfl, rfl, ?_⟩
  unfold summarize_with_ai
  rw [show jsonLoads (raw_content_of (Option.none : Option String))
        = some (PyValue.arr []) from rfl]
